import Mathlib

/-!
Verification of the rdflib graph data-model layer (src/rdflib/graph.py and
src/rdflib/dataset.py) against its natural-language specification.

Python strings are embedded as lists of characters, RDF terms as a closed
tagged union, and the default Memory store (a collaborator specified only at
its interface boundary) as a duplicate-free list of triples.
-/

namespace RdfLib

/-- An RDF term: the tagged union of IRI references, blank nodes and
literals, mirroring rdflib.term.URIRef, BNode and Literal.  The payload is
the underlying Python string (IRI text, blank-node label, or lexical form),
embedded as a list of characters. -/
inductive Term where
  | uriref (iri : List Char)
  | bnode (label : List Char)
  | literal (lex : List Char)
  deriving DecidableEq, Repr

/-- A triple (subject, predicate, object), as in graph.py's _TripleType. -/
abbrev Triple := Term × Term × Term

/-- The concrete Python class of a graph object: the base Graph class, a
subclass with a nullary constructor, or a subclass whose constructor is not
nullary (so that calling type(self)() raises TypeError). -/
inductive GraphKind where
  | base
  | subNullary
  | subNonNullary
  deriving DecidableEq, Repr

/-- The graph kind produced by the try/except TypeError pattern around
type(self)() in Graph.add/mul/sub (graph.py lines 774-777, 789-792,
801-804): the operand's own kind when its constructor is nullary, the base
Graph kind otherwise. -/
def fallbackKind : GraphKind → GraphKind
  | .subNonNullary => .base
  | k => k

/-- The state of a Graph: its concrete Python class, the triples held for it
by the backing store, and the (prefix, namespace-IRI) bindings held by its
NamespaceManager.  The triple list is kept duplicate-free because the store
holds a set of triples. -/
structure PyGraph where
  kind : GraphKind
  triples : List Triple
  bindings : List (List Char × List Char)
  deriving DecidableEq, Repr

/-- Modelled from the spec: the backing Memory store's add (a collaborator,
not under src/).  The module docstring of graph.py states that an RDF graph
is a set of RDF triples, so insertion of an already-present triple is a
no-op; a new triple is appended. -/
def graphAdd (g : PyGraph) (t : Triple) : PyGraph :=
  if t ∈ g.triples then g else { g with triples := g.triples ++ [t] }

/-- Inserting each triple of a list in order, as the for-loops of the set
operators in graph.py do via retval.add(x). -/
def graphAddAll (g : PyGraph) (ts : List Triple) : PyGraph :=
  ts.foldl graphAdd g

/-- Modelled from the spec: Graph.bind delegates to the NamespaceManager
collaborator (out of scope, specified at its interface boundary); binding a
(prefix, namespace) pair records it, and rebinding an existing pair is a
no-op. -/
def graphBind (g : PyGraph) (pn : List Char × List Char) : PyGraph :=
  if pn ∈ g.bindings then g else { g with bindings := g.bindings ++ [pn] }

/-- A freshly constructed graph of the given concrete kind, as produced by
type(self)() / Graph() inside the set operators.  Modelled from the spec:
the default bindings a fresh NamespaceManager carries are out of scope and
are embedded as the empty binding list. -/
def newGraph (k : GraphKind) : PyGraph :=
  { kind := k, triples := [], bindings := [] }

/-- Graph.add of graph.py lines 771-784: build a fresh graph of the
fallback kind, bind the namespace bindings of both operands, then add every
triple of self and of other.  (The source iterates over the set of binding
pairs; the membership test inside graphBind realises that set semantics.) -/
def graphUnion (g h : PyGraph) : PyGraph :=
  let retval := newGraph (fallbackKind g.kind)
  let retval := (g.bindings ++ h.bindings).foldl graphBind retval
  graphAddAll (graphAddAll retval g.triples) h.triples

/-- Graph.mul of graph.py lines 786-796: a fresh graph of the fallback
kind receiving every triple of other that is also in self.  No namespace
bindings are copied. -/
def graphInter (g h : PyGraph) : PyGraph :=
  h.triples.foldl (fun r x => if x ∈ g.triples then graphAdd r x else r)
    (newGraph (fallbackKind g.kind))

/-- Graph.sub of graph.py lines 798-808: a fresh graph of the fallback
kind receiving every triple of self that is not in other.  No namespace
bindings are copied. -/
def graphSub (g h : PyGraph) : PyGraph :=
  g.triples.foldl (fun r x => if x ∈ h.triples then r else graphAdd r x)
    (newGraph (fallbackKind g.kind))

/-- Graph.xor of graph.py lines 810-813: (self - other) + (other - self). -/
def graphXor (g h : PyGraph) : PyGraph :=
  graphUnion (graphSub g h) (graphSub h g)

/-- A graph carrying one custom namespace binding, used as a concrete
operand below. -/
def exG : PyGraph :=
  { kind := .base, triples := [],
    bindings := [(String.toList "ex", String.toList "http://ex/")] }

/-- A graph with no custom namespace bindings, used as a concrete operand
below. -/
def exH : PyGraph := { kind := .base, triples := [], bindings := [] }

/-- A Python value handed to Graph.add in a triple position: either a proper
rdflib term (isinstance(x, Node) holds) or any other Python object, carried
with its textual representation. -/
inductive PyVal where
  | node (t : Term)
  | other (text : List Char)
  deriving DecidableEq, Repr

/-- The result of isinstance(x, Node) on an embedded Python value. -/
def PyVal.isNode : PyVal → Bool
  | .node _ => true
  | .other _ => false

/-- Python exceptions the embedded operations can surface.  AssertionError
is what a failing assert statement raises; InvalidTermError appears here
only so that the spec's claimed exception is expressible — no code under
src/ raises it.  UniquenessError comes from rdflib.exceptions, and
UnboundLocalError and TypeError are Python built-ins. -/
inductive PyErr where
  | assertionError
  | invalidTermError
  | uniquenessError
  | unboundLocalError
  | typeError
  | valueError
  deriving DecidableEq, Repr

instance {ε α : Type} [DecidableEq ε] [DecidableEq α] :
    DecidableEq (Except ε α) := fun x y =>
  match x, y with
  | .ok a, .ok b =>
      if h : a = b then isTrue (by rw [h])
      else isFalse fun hh => h (Except.ok.inj hh)
  | .error a, .error b =>
      if h : a = b then isTrue (by rw [h])
      else isFalse fun hh => h (Except.error.inj hh)
  | .ok _, .error _ => isFalse fun hh => Except.noConfusion hh
  | .error _, .ok _ => isFalse fun hh => Except.noConfusion hh

/-- Graph.add from graph.py lines 568-575: three assert statements check
isinstance(_, Node) for subject, predicate and object; a failure raises
AssertionError.  When all three are terms the triple is inserted into the
store under this graph's context and the graph itself is returned. -/
def pyGraphAdd (g : PyGraph) : PyVal → PyVal → PyVal → Except PyErr PyGraph
  | .node s, .node p, .node o => .ok (graphAdd g (s, p, o))
  | _, _, _ => .error .assertionError

/-- A concrete IRI subject used in witnesses. -/
def tS : Term := .uriref (String.toList "http://ex/s")

/-- A concrete IRI predicate used in witnesses. -/
def tP : Term := .uriref (String.toList "http://ex/p")

/-- A concrete literal object used in witnesses. -/
def tO : Term := .literal (String.toList "o")

/-- Whether a pattern position (None meaning wildcard) accepts a term. -/
def optMatches (pat : Option Term) (t : Term) : Bool :=
  match pat with
  | none => true
  | some x => x == t

/-- The triples of a graph matching an (s, p, o) pattern, as a fresh scan of
the store in Graph.triples (graph.py lines 616-631). -/
def triplesMatching (g : PyGraph) (s p o : Option Term) : List Triple :=
  g.triples.filter fun t =>
    optMatches s t.1 && optMatches p t.2.1 && optMatches o t.2.2

/-- Graph.objects restricted to what Graph.value consumes: objects of
triples matching (subject, predicate, None). -/
def objectsList (g : PyGraph) (s p : Option Term) : List Term :=
  (triplesMatching g s p none).map fun t => t.2.2

/-- Graph.subjects restricted to what Graph.value consumes. -/
def subjectsList (g : PyGraph) (p o : Option Term) : List Term :=
  (triplesMatching g none p o).map fun t => t.1

/-- Graph.predicates restricted to what Graph.value consumes. -/
def predicatesList (g : PyGraph) (s o : Option Term) : List Term :=
  (triplesMatching g s none o).map fun t => t.2.1

/-- The early-return test of Graph.value (graph.py lines 1058-1063): more
than one of subject, predicate, object omitted. -/
def ambiguousPattern (s p o : Option Term) : Bool :=
  (s.isNone && p.isNone) || (s.isNone && o.isNone) || (p.isNone && o.isNone)

/-- Graph.value from graph.py lines 1033-1096.  When more than one of
subject, predicate, object is None the function returns None — not the
default argument.  Otherwise the three sequential if-assignments pick the
projection for the single omitted position (the last assignment wins, hence
predicate is tested first here); with all three bound, no assignment ran
and next(values) raises UnboundLocalError.  The first match is returned;
with zero matches the default is returned; with any=False a second match
raises UniquenessError. -/
def graphValue (g : PyGraph) (subject pred object dflt : Option Term)
    (anyFlag : Bool) : Except PyErr (Option Term) :=
  if ambiguousPattern subject pred object then
    .ok none
  else
    let values? : Option (List Term) :=
      if pred.isNone then some (predicatesList g subject object)
      else if subject.isNone then some (subjectsList g pred object)
      else if object.isNone then some (objectsList g subject pred)
      else none
    match values? with
    | none => .error .unboundLocalError
    | some [] => .ok dflt
    | some (v :: rest) =>
        if anyFlag then .ok (some v)
        else
          match rest with
          | [] => .ok (some v)
          | _ :: _ => .error .uniquenessError

/-- A reference to a Python term object: the term value plus the object's
identity (its id()), letting the embedding distinguish the is operator
(identity) from == (string equality).  Distinct URIRef objects with equal
text have distinct oids. -/
structure TermRef where
  oid : Nat
  val : Term
  deriving DecidableEq, Repr

/-- The Python object in the context position of a quad handed to
Graph.addN: either a Graph instance (carrying the reference to its
identifier object) or any non-Graph value, for which isinstance(c, Graph)
is false. -/
inductive CtxObj where
  | graphObj (identifier : TermRef)
  | nonGraph (r : TermRef)
  deriving DecidableEq, Repr

/-- A quad as consumed by Graph.addN: three terms and a context object. -/
abbrev QuadR := Term × Term × Term × CtxObj

/-- The store-facing state of a graph for Graph.addN: the reference to its
identifier object and the quads its store has received. -/
structure GraphN where
  identifier : TermRef
  storeQuads : List QuadR
  deriving DecidableEq, Repr

/-- The per-quad guard of Graph.addN (graph.py lines 580-586):
isinstance(c, Graph) and c.identifier is self.identifier.  The is operator
compares object identity, embedded as oid equality; _assertnode is True for
the term-typed s, p, o. -/
def ctxPasses (selfIdent : TermRef) (q : QuadR) : Bool :=
  match q.2.2.2 with
  | .graphObj ident => ident.oid == selfIdent.oid
  | .nonGraph _ => false

/-- Graph.addN from graph.py lines 577-587: the store receives exactly the
quads passing the guard; the rest are dropped without error. -/
def graphAddN (g : GraphN) (quads : List QuadR) : GraphN :=
  { g with storeQuads := g.storeQuads ++ quads.filter (ctxPasses g.identifier) }

/-- A graph whose identifier object has id 0 and IRI http://ex/g. -/
def gN : GraphN :=
  { identifier := { oid := 0, val := .uriref (String.toList "http://ex/g") },
    storeQuads := [] }

/-- A quad whose context is a distinct Graph object whose identifier is a
different URIRef object carrying the same IRI text http://ex/g. -/
def qEqualNotIdentical : QuadR :=
  (tS, tP, tO,
    CtxObj.graphObj { oid := 1, val := .uriref (String.toList "http://ex/g") })

/-- The state of a BatchAddGraph (graph.py lines 2078-2152): the reference
to the wrapped graph's identifier object (the wrapper appends the wrapped
graph itself as context, so every buffered 3-tuple carries this same
object), the batches the wrapped graph's store has received — one list per
addN call —, the configured batch size, the buffer of not-yet-flushed
quads, and the count attribute. -/
structure BatchAddGraph where
  graphIdent : TermRef
  received : List (List QuadR)
  batchSize : Nat
  batch : List QuadR
  count : Nat
  deriving DecidableEq, Repr

/-- BatchAddGraph.__init__ from graph.py lines 2097-2104: a batch_size that
is falsy or below 2 raises ValueError; otherwise the state starts reset. -/
def batchInit (ident : TermRef) (batchSize : Nat) :
    Except PyErr BatchAddGraph :=
  if batchSize < 2 then .error .valueError
  else .ok { graphIdent := ident, received := [], batchSize := batchSize,
             batch := [], count := 0 }

/-- BatchAddGraph.reset from graph.py lines 2106-2112: the buffer becomes
empty and the count becomes zero; nothing is flushed to the store. -/
def batchReset (b : BatchAddGraph) : BatchAddGraph :=
  { b with batch := [], count := 0 }

/-- A triple turned into the quad buffered by BatchAddGraph.add: the
wrapper appends its own graph (the same object every time) as the fourth
component. -/
def withGraphCtx (ident : TermRef) (t : Triple) : QuadR :=
  (t.1, t.2.1, t.2.2, CtxObj.graphObj ident)

/-- BatchAddGraph.add from graph.py lines 2114-2136, for a 3-tuple input:
if the buffer has reached the batch size the buffer is first flushed via
the wrapped graph's addN (whose context guard every buffered quad passes,
since its context is the wrapped graph itself) and emptied, then count is
incremented and the triple, with the wrapped graph appended as context, is
buffered. -/
def batchAdd (b : BatchAddGraph) (t : Triple) : BatchAddGraph :=
  let b :=
    if b.batchSize ≤ b.batch.length then
      { b with
        received := b.received ++ [b.batch.filter (ctxPasses b.graphIdent)],
        batch := [] }
    else b
  { b with count := b.count + 1,
           batch := b.batch ++ [withGraphCtx b.graphIdent t] }

/-- Calling BatchAddGraph.add once per triple of a list, in order. -/
def batchAddAll (b : BatchAddGraph) (ts : List Triple) : BatchAddGraph :=
  ts.foldl batchAdd b

/-- BatchAddGraph.__enter__ from graph.py lines 2146-2148: entering the
context manager resets the wrapper. -/
def batchEnter (b : BatchAddGraph) : BatchAddGraph :=
  batchReset b

/-- BatchAddGraph.__exit__ from graph.py lines 2150-2152: on normal exit
(no in-flight exception) the remaining buffer is flushed through the
wrapped graph's addN; on abnormal exit nothing happens. -/
def batchExit (excNone : Bool) (b : BatchAddGraph) : BatchAddGraph :=
  if excNone then
    { b with
      received := b.received ++ [b.batch.filter (ctxPasses b.graphIdent)] }
  else b

/-- The invariant of BatchAddGraph buffering, after the triples of done
have been added one by one to a freshly initialised wrapper: m full batches
have been flushed, the store content plus the buffer is exactly the added
quads in order, the buffer never exceeds the batch size, the store is only
written once the buffer has been non-empty, and every buffered quad has the
wrapped graph as context. -/
def BatchInv (ident : TermRef) (N m : Nat) (done : List Triple)
    (b : BatchAddGraph) : Prop :=
  b.graphIdent = ident ∧
  b.batchSize = N ∧
  b.received.map List.length = List.replicate m N ∧
  b.received.flatten ++ b.batch = done.map (withGraphCtx ident) ∧
  b.batch.length ≤ N ∧
  (b.batch = [] → b.received = []) ∧
  ∀ q ∈ b.batch, q.2.2.2 = CtxObj.graphObj ident

/-- The identifier object of a concrete wrapped graph, used in witnesses. -/
def identEx : TermRef :=
  { oid := 0, val := .uriref (String.toList "http://ex/g") }

/-- A concrete triple used in witnesses. -/
def trEx : Triple := (tS, tP, tO)

/-- A freshly initialised BatchAddGraph with batch size 2 over identEx. -/
def bcEx : BatchAddGraph :=
  { graphIdent := identEx, received := [], batchSize := 2, batch := [],
    count := 0 }

/-- The wrapper state reached after five adds on bcEx, so its count is 5. -/
def bAfter5 : BatchAddGraph := batchAddAll bcEx [trEx, trEx, trEx, trEx, trEx]

/-- A wrapper state with a non-empty buffer and non-zero count, which
entering discards. -/
def bDirty : BatchAddGraph :=
  { graphIdent := identEx, received := [], batchSize := 2,
    batch := [withGraphCtx identEx trEx], count := 7 }

/-- Modelled from the spec: the default skolem authority of rdflib.term
(not under src/), visible in the dataset.py docstring examples. -/
def skolemAuthority : List Char := String.toList "https://rdflib.github.io"

/-- Modelled from the spec: the rdflib skolem genid base path of
rdflib.term (not under src/). -/
def rdflibGenidPath : List Char := String.toList "/.well-known/genid/rdflib/"

/-- Modelled from the spec: the well-known genid path marking any (also
external) skolem IRI. -/
def genidMarker : List Char := String.toList "/.well-known/genid/"

/-- The full stem of an rdflib-minted skolem IRI under the default
authority and base path. -/
def rdflibSkolemStem : List Char := skolemAuthority ++ rdflibGenidPath

/-- Whether the first list is a prefix of the second, as Python's
str.startswith. -/
def startsWith : List Char → List Char → Bool
  | [], _ => true
  | _ :: _, [] => false
  | a :: as, b :: bs => a == b && startsWith as bs

/-- Whether the needle occurs as a contiguous substring, as Python's in
operator on strings. -/
def hasSub (needle : List Char) : List Char → Bool
  | [] => needle.isEmpty
  | c :: cs => startsWith needle (c :: cs) || hasSub needle cs

/-- Modelled from the spec: BNode.skolemize of rdflib.term (not under
src/) with the default authority and basepath — the blank node label is
appended to the rdflib skolem stem, giving a deterministic,
dereferenceable IRI. -/
def bnodeSkolemize (label : List Char) : Term :=
  .uriref (rdflibSkolemStem ++ label)

/-- Modelled from the spec: RDFLibGenid._is_rdflib_skolem of rdflib.term
(not under src/) — the term is a URIRef starting with the default
authority followed by the rdflib genid path. -/
def isRdflibSkolem : Term → Bool
  | .uriref u => startsWith rdflibSkolemStem u
  | _ => false

/-- Modelled from the spec: Genid._is_external_skolem of rdflib.term (not
under src/) — the term is a URIRef containing the well-known genid path. -/
def isExternalSkolem : Term → Bool
  | .uriref u => hasSub genidMarker u
  | _ => false

/-- Modelled from the spec: RDFLibGenid.de_skolemize of rdflib.term (not
under src/) — strips the rdflib skolem stem, recovering the blank node
with the original label. -/
def rdflibGenidDeSkolemize : Term → Term
  | .uriref u => .bnode (u.drop rdflibSkolemStem.length)
  | t => t

/-- do_skolemize2 of Graph.skolemize (graph.py lines 1803-1809), applied
when no specific bnode is given: a blank-node subject or object is
skolemized; the predicate is never rewritten. -/
def doSkolemize2 (t : Triple) : Triple :=
  let s := match t.1 with | .bnode l => bnodeSkolemize l | s => s
  let o := match t.2.2 with | .bnode l => bnodeSkolemize l | o => o
  (s, t.2.1, o)

/-- Modelled from the spec: Genid.de_skolemize of rdflib.term (not under
src/) for externally minted skolem IRIs; under the hypothesis of the C8
result this branch is never taken, so only its shape (a blank node is
produced) matters. -/
def genidDeSkolemize : Term → Term
  | .uriref u => .bnode u
  | t => t

/-- do_de_skolemize2 of Graph.de_skolemize (graph.py lines 1836-1853):
a subject or object that is an rdflib skolem IRI is de-skolemized; failing
that, an external skolem IRI is de-skolemized by the Genid path; the
predicate is never rewritten. -/
def doDeSkolemize2 (t : Triple) : Triple :=
  let s :=
    if isRdflibSkolem t.1 then rdflibGenidDeSkolemize t.1
    else if isExternalSkolem t.1 then genidDeSkolemize t.1
    else t.1
  let o :=
    if isRdflibSkolem t.2.2 then rdflibGenidDeSkolemize t.2.2
    else if isExternalSkolem t.2.2 then genidDeSkolemize t.2.2
    else t.2.2
  (s, t.2.1, o)

/-- Graph.skolemize with default arguments (graph.py lines 1784-1819):
each triple is mapped by do_skolemize2 and added to a fresh Graph via
_process_skolem_tuples (lines 1778-1782). -/
def skolemizeGraph (g : PyGraph) : PyGraph :=
  graphAddAll (newGraph .base) (g.triples.map doSkolemize2)

/-- Graph.de_skolemize with default arguments (graph.py lines 1821-1863):
each triple is mapped by do_de_skolemize2 and added to a fresh Graph. -/
def deSkolemizeGraph (g : PyGraph) : PyGraph :=
  graphAddAll (newGraph .base) (g.triples.map doDeSkolemize2)

/-- A term whose IRI, if any, is not skolem-shaped — it neither starts
with the rdflib skolem stem nor contains the well-known genid path — so
de_skolemize leaves it alone. -/
def cleanTerm : Term → Bool
  | .uriref u => !(startsWith rdflibSkolemStem u) && !(hasSub genidMarker u)
  | _ => true

/-- A graph in which every subject and object IRI is clean: its only
skolem IRIs after skolemize are the ones skolemize itself minted. -/
def cleanGraph (g : PyGraph) : Bool :=
  g.triples.all fun t => cleanTerm t.1 && cleanTerm t.2.2

/-- A concrete graph with a blank node in subject and object position and
clean IRIs elsewhere. -/
def gSkolemEx : PyGraph :=
  { kind := .base,
    triples := [(Term.bnode (String.toList "n1"), tP, tO),
                (tS, tP, Term.bnode (String.toList "n1"))],
    bindings := [] }

/-- A backing Store for a Dataset: its graph_aware capability flag and the
identifiers of the graphs it holds (populated by store.add_graph calls). -/
structure Store where
  graph_aware : Bool
  graphIdents : List Term
  deriving DecidableEq, Repr

/-- The attributes a fully constructed Dataset object would carry, per the
assignments in Dataset.__init__ (dataset.py lines 188-198). -/
structure DatasetObj where
  store : Store
  base : Option (List Char)
  context_aware : Bool
  formula_aware : Bool
  deriving DecidableEq, Repr

/-- Dataset.__init__ from dataset.py lines 180-201.  The class is declared
as class Dataset() — deriving from object alone — yet its first statement
(line 187) is super(Dataset, self).__init__(store=store, identifier=None).
That call reaches object.__init__ with keyword arguments, which Python
rejects with TypeError, so construction fails before any further statement
runs.  No statement of the body creates or registers a default graph in
the store in any case: the body only assigns plain attributes (base, the
private store, the namespace manager, context_aware, formula_aware) and
checks the store's graph_aware flag (line 200), so no store.add_graph or
default-context creation ever happens. -/
def datasetInit (store : Store) : Except PyErr DatasetObj :=
  Except.error PyErr.typeError

theorem graphAdd_kind (g : PyGraph) (t : Triple) : (graphAdd g t).kind = g.kind := by
  unfold graphAdd; split <;> rfl

theorem graphAdd_bindings (g : PyGraph) (t : Triple) :
    (graphAdd g t).bindings = g.bindings := by
  unfold graphAdd; split <;> rfl

theorem mem_graphAdd (g : PyGraph) (t x : Triple) :
    x ∈ (graphAdd g t).triples ↔ x ∈ g.triples ∨ x = t := by
  unfold graphAdd
  split
  next h =>
    constructor
    · exact fun hx => Or.inl hx
    · rintro (hx | rfl)
      · exact hx
      · exact h
  next h =>
    simp only [List.mem_append, List.mem_singleton]

theorem nodup_graphAdd (g : PyGraph) (t : Triple) (hg : g.triples.Nodup) :
    (graphAdd g t).triples.Nodup := by
  unfold graphAdd
  split
  next h => exact hg
  next h =>
    refine List.Nodup.append hg (List.nodup_singleton t) ?_
    intro a ha hb
    rw [List.mem_singleton] at hb
    exact h (hb ▸ ha)

theorem mem_graphAddAll (ts : List Triple) (g : PyGraph) (x : Triple) :
    x ∈ (graphAddAll g ts).triples ↔ x ∈ g.triples ∨ x ∈ ts := by
  induction ts generalizing g with
  | nil => simp [graphAddAll]
  | cons t ts ih =>
      simp only [graphAddAll, List.foldl_cons] at *
      rw [ih (graphAdd g t)]
      rw [mem_graphAdd]
      simp only [List.mem_cons]
      tauto

theorem nodup_graphAddAll (ts : List Triple) (g : PyGraph)
    (hg : g.triples.Nodup) : (graphAddAll g ts).triples.Nodup := by
  induction ts generalizing g with
  | nil => exact hg
  | cons t ts ih => exact ih (graphAdd g t) (nodup_graphAdd g t hg)

theorem kind_graphAddAll (ts : List Triple) (g : PyGraph) :
    (graphAddAll g ts).kind = g.kind := by
  induction ts generalizing g with
  | nil => rfl
  | cons t ts ih => rw [graphAddAll, List.foldl_cons, ← graphAddAll, ih, graphAdd_kind]

theorem bindings_graphAddAll (ts : List Triple) (g : PyGraph) :
    (graphAddAll g ts).bindings = g.bindings := by
  induction ts generalizing g with
  | nil => rfl
  | cons t ts ih =>
      rw [graphAddAll, List.foldl_cons, ← graphAddAll, ih, graphAdd_bindings]

theorem graphBind_triples (g : PyGraph) (pn : List Char × List Char) :
    (graphBind g pn).triples = g.triples := by
  unfold graphBind; split <;> rfl

theorem graphBind_kind (g : PyGraph) (pn : List Char × List Char) :
    (graphBind g pn).kind = g.kind := by
  unfold graphBind; split <;> rfl

theorem mem_graphBind (g : PyGraph) (pn qn : List Char × List Char) :
    qn ∈ (graphBind g pn).bindings ↔ qn ∈ g.bindings ∨ qn = pn := by
  unfold graphBind
  split
  next h =>
    constructor
    · exact fun hx => Or.inl hx
    · rintro (hx | rfl)
      · exact hx
      · exact h
  next h =>
    simp only [List.mem_append, List.mem_singleton]

theorem triples_bindFold (ps : List (List Char × List Char)) (g : PyGraph) :
    (ps.foldl graphBind g).triples = g.triples := by
  induction ps generalizing g with
  | nil => rfl
  | cons p ps ih => rw [List.foldl_cons, ih, graphBind_triples]

theorem kind_bindFold (ps : List (List Char × List Char)) (g : PyGraph) :
    (ps.foldl graphBind g).kind = g.kind := by
  induction ps generalizing g with
  | nil => rfl
  | cons p ps ih => rw [List.foldl_cons, ih, graphBind_kind]

theorem mem_bindFold (ps : List (List Char × List Char)) (g : PyGraph)
    (qn : List Char × List Char) :
    qn ∈ (ps.foldl graphBind g).bindings ↔ qn ∈ g.bindings ∨ qn ∈ ps := by
  induction ps generalizing g with
  | nil => simp
  | cons p ps ih =>
      rw [List.foldl_cons, ih, mem_graphBind]
      simp only [List.mem_cons]
      tauto

theorem mem_graphUnion (g h : PyGraph) (x : Triple) :
    x ∈ (graphUnion g h).triples ↔ x ∈ g.triples ∨ x ∈ h.triples := by
  unfold graphUnion
  rw [mem_graphAddAll, mem_graphAddAll, triples_bindFold]
  simp [newGraph]

theorem nodup_graphUnion (g h : PyGraph) : (graphUnion g h).triples.Nodup := by
  unfold graphUnion
  apply nodup_graphAddAll
  apply nodup_graphAddAll
  rw [triples_bindFold]
  exact List.nodup_nil

theorem kind_graphUnion (g h : PyGraph) :
    (graphUnion g h).kind = fallbackKind g.kind := by
  unfold graphUnion
  rw [kind_graphAddAll, kind_graphAddAll, kind_bindFold]
  rfl

theorem bindings_graphUnion (g h : PyGraph) (qn : List Char × List Char) :
    qn ∈ (graphUnion g h).bindings ↔ qn ∈ g.bindings ∨ qn ∈ h.bindings := by
  unfold graphUnion
  rw [bindings_graphAddAll, bindings_graphAddAll, mem_bindFold]
  simp [newGraph]

theorem interFold_spec (keep : List Triple) (l : List Triple) (r : PyGraph)
    (x : Triple) :
    x ∈ (l.foldl (fun r x => if x ∈ keep then graphAdd r x else r) r).triples ↔
      x ∈ r.triples ∨ (x ∈ l ∧ x ∈ keep) := by
  induction l generalizing r with
  | nil => simp
  | cons t l ih =>
      rw [List.foldl_cons, ih]
      by_cases ht : t ∈ keep
      · rw [if_pos ht, mem_graphAdd]
        simp only [List.mem_cons]
        constructor
        · rintro ((hx | rfl) | hx)
          · exact Or.inl hx
          · exact Or.inr ⟨Or.inl rfl, ht⟩
          · exact Or.inr ⟨Or.inr hx.1, hx.2⟩
        · rintro (hx | ⟨(rfl | hx), hk⟩)
          · exact Or.inl (Or.inl hx)
          · exact Or.inl (Or.inr rfl)
          · exact Or.inr ⟨hx, hk⟩
      · rw [if_neg ht]
        simp only [List.mem_cons]
        constructor
        · rintro (hx | hx)
          · exact Or.inl hx
          · exact Or.inr ⟨Or.inr hx.1, hx.2⟩
        · rintro (hx | ⟨(rfl | hx), hk⟩)
          · exact Or.inl hx
          · exact absurd hk ht
          · exact Or.inr ⟨hx, hk⟩

theorem interFold_frame (keep : List Triple) (l : List Triple) (r : PyGraph) :
    (l.foldl (fun r x => if x ∈ keep then graphAdd r x else r) r).kind = r.kind ∧
    (l.foldl (fun r x => if x ∈ keep then graphAdd r x else r) r).bindings
      = r.bindings := by
  induction l generalizing r with
  | nil => exact ⟨rfl, rfl⟩
  | cons t l ih =>
      rw [List.foldl_cons]
      by_cases ht : t ∈ keep
      · rw [if_pos ht]
        rcases ih (graphAdd r t) with ⟨h1, h2⟩
        exact ⟨h1.trans (graphAdd_kind r t), h2.trans (graphAdd_bindings r t)⟩
      · rw [if_neg ht]
        exact ih r

theorem subFold_spec (avoid : List Triple) (l : List Triple) (r : PyGraph)
    (x : Triple) :
    x ∈ (l.foldl (fun r x => if x ∈ avoid then r else graphAdd r x) r).triples ↔
      x ∈ r.triples ∨ (x ∈ l ∧ x ∉ avoid) := by
  induction l generalizing r with
  | nil => simp
  | cons t l ih =>
      rw [List.foldl_cons, ih]
      by_cases ht : t ∈ avoid
      · rw [if_pos ht]
        simp only [List.mem_cons]
        constructor
        · rintro (hx | hx)
          · exact Or.inl hx
          · exact Or.inr ⟨Or.inr hx.1, hx.2⟩
        · rintro (hx | ⟨(rfl | hx), hk⟩)
          · exact Or.inl hx
          · exact absurd ht hk
          · exact Or.inr ⟨hx, hk⟩
      · rw [if_neg ht, mem_graphAdd]
        simp only [List.mem_cons]
        constructor
        · rintro ((hx | rfl) | hx)
          · exact Or.inl hx
          · exact Or.inr ⟨Or.inl rfl, ht⟩
          · exact Or.inr ⟨Or.inr hx.1, hx.2⟩
        · rintro (hx | ⟨(rfl | hx), hk⟩)
          · exact Or.inl (Or.inl hx)
          · exact Or.inl (Or.inr rfl)
          · exact Or.inr ⟨hx, hk⟩

theorem subFold_frame (avoid : List Triple) (l : List Triple) (r : PyGraph) :
    (l.foldl (fun r x => if x ∈ avoid then r else graphAdd r x) r).kind = r.kind ∧
    (l.foldl (fun r x => if x ∈ avoid then r else graphAdd r x) r).bindings
      = r.bindings := by
  induction l generalizing r with
  | nil => exact ⟨rfl, rfl⟩
  | cons t l ih =>
      rw [List.foldl_cons]
      by_cases ht : t ∈ avoid
      · rw [if_pos ht]
        exact ih r
      · rw [if_neg ht]
        rcases ih (graphAdd r t) with ⟨h1, h2⟩
        exact ⟨h1.trans (graphAdd_kind r t), h2.trans (graphAdd_bindings r t)⟩

theorem mem_graphInter (g h : PyGraph) (x : Triple) :
    x ∈ (graphInter g h).triples ↔ x ∈ g.triples ∧ x ∈ h.triples := by
  unfold graphInter
  rw [interFold_spec]
  simp only [newGraph, List.not_mem_nil, false_or]
  tauto

theorem mem_graphSub (g h : PyGraph) (x : Triple) :
    x ∈ (graphSub g h).triples ↔ x ∈ g.triples ∧ x ∉ h.triples := by
  unfold graphSub
  rw [subFold_spec]
  simp only [newGraph, List.not_mem_nil, false_or]

theorem mem_graphXor (g h : PyGraph) (x : Triple) :
    x ∈ (graphXor g h).triples ↔
      (x ∈ g.triples ∧ x ∉ h.triples) ∨ (x ∈ h.triples ∧ x ∉ g.triples) := by
  unfold graphXor
  rw [mem_graphUnion, mem_graphSub, mem_graphSub]

theorem toFinset_graphUnion (g h : PyGraph) :
    (graphUnion g h).triples.toFinset = g.triples.toFinset ∪ h.triples.toFinset := by
  ext t
  simp only [List.mem_toFinset, Finset.mem_union]
  exact mem_graphUnion g h t

theorem length_graphUnion (g h : PyGraph) :
    (graphUnion g h).triples.length
      = (g.triples.toFinset ∪ h.triples.toFinset).card := by
  rw [← toFinset_graphUnion, List.toFinset_card_of_nodup (nodup_graphUnion g h)]

theorem fallbackKind_idem (k : GraphKind) :
    fallbackKind (fallbackKind k) = fallbackKind k := by
  cases k <;> rfl

/-- C5: viewing graphs as sets of triples, g * h contains exactly the
triples present in both operands, g - h exactly those of g absent from h,
g ^ h is literally (g - h) + (h - g) and holds exactly the symmetric
difference, and len(g + h) is the cardinality of the set union of the two
triple sets, so duplicated triples are not double-counted. -/
theorem fv_c5_set_algebra (g h : PyGraph) :
    (∀ t, t ∈ (graphInter g h).triples ↔ t ∈ g.triples ∧ t ∈ h.triples) ∧
    (∀ t, t ∈ (graphSub g h).triples ↔ t ∈ g.triples ∧ t ∉ h.triples) ∧
    graphXor g h = graphUnion (graphSub g h) (graphSub h g) ∧
    (∀ t, t ∈ (graphXor g h).triples ↔
        (t ∈ g.triples ∧ t ∉ h.triples) ∨ (t ∈ h.triples ∧ t ∉ g.triples)) ∧
    (graphUnion g h).triples.length
      = (g.triples.toFinset ∪ h.triples.toFinset).card :=
  ⟨mem_graphInter g h, mem_graphSub g h, rfl, mem_graphXor g h,
    length_graphUnion g h⟩

/-- C6 counterexample: the intersection operator does not copy the
operands' bindings — the binding (ex, http://ex/) of exG is absent from
(exG * exH), so not every one of the four operators copies bindings from
both operands. -/
theorem fv_c6_counterexample :
    (String.toList "ex", String.toList "http://ex/") ∈ exG.bindings ∧
    (String.toList "ex", String.toList "http://ex/")
      ∉ (graphInter exG exH).bindings := by
  constructor
  · decide
  · decide

/-- C6 amended: each of the four set-algebra operators produces a new Graph
of the same concrete kind (falling back to the base Graph kind when the
subclass constructor is not nullary), but only + copies the namespace
bindings of both operands; *, -, and ^ produce a graph carrying only the
fresh graph's own (default) bindings. -/
theorem fv_c6_kind_and_bindings (g h : PyGraph) :
    (graphUnion g h).kind = fallbackKind g.kind ∧
    (graphInter g h).kind = fallbackKind g.kind ∧
    (graphSub g h).kind = fallbackKind g.kind ∧
    (graphXor g h).kind = fallbackKind g.kind ∧
    (∀ qn, (qn ∈ g.bindings ∨ qn ∈ h.bindings) → qn ∈ (graphUnion g h).bindings) ∧
    (graphInter g h).bindings = (newGraph (fallbackKind g.kind)).bindings ∧
    (graphSub g h).bindings = (newGraph (fallbackKind g.kind)).bindings ∧
    (graphXor g h).bindings = (newGraph (fallbackKind g.kind)).bindings := by
  have hsk : ∀ g' h' : PyGraph, (graphSub g' h').kind = fallbackKind g'.kind :=
    fun g' h' => (subFold_frame h'.triples g'.triples _).1
  have hsb : ∀ g' h' : PyGraph, (graphSub g' h').bindings = [] :=
    fun g' h' => (subFold_frame h'.triples g'.triples _).2
  refine ⟨kind_graphUnion g h, ?_, hsk g h, ?_, ?_, ?_, hsb g h, ?_⟩
  · exact ((interFold_frame g.triples h.triples _).1)
  · rw [graphXor, kind_graphUnion, hsk g h]
    exact fallbackKind_idem g.kind
  · exact fun qn hqn => (bindings_graphUnion g h qn).mpr hqn
  · exact ((interFold_frame g.triples h.triples _).2)
  · apply List.eq_nil_iff_forall_not_mem.mpr
    intro qn hqn
    rcases (bindings_graphUnion _ _ qn).mp hqn with hq | hq
    · rw [hsb g h] at hq
      exact List.not_mem_nil qn hq
    · rw [hsb h g] at hq
      exact List.not_mem_nil qn hq

/-- Witness for the binding-inclusion hypothesis of the amended C6 theorem,
instantiated at the concrete operands exG and exH. -/
theorem fv_c6_witness :
    (String.toList "ex", String.toList "http://ex/")
      ∈ (graphUnion exG exH).bindings :=
  (fv_c6_kind_and_bindings exG exH).2.2.2.2.1 _ (Or.inl (by decide))

/-- C7 counterexample: passing the plain Python value 42 as subject makes
Graph.add fail with AssertionError (from the assert statement), not with
InvalidTermError as claimed — no code under src/ raises InvalidTermError. -/
theorem fv_c7_counterexample :
    pyGraphAdd exH (.other (String.toList "42")) (.node tP) (.node tO)
        = .error PyErr.assertionError ∧
    pyGraphAdd exH (.other (String.toList "42")) (.node tP) (.node tO)
        ≠ .error PyErr.invalidTermError := by
  exact ⟨rfl, by decide⟩

/-- C7 amended: Graph.add fails with AssertionError (a bare assert, not
InvalidTermError) whenever any of subject, predicate or object is not a
well-formed Term, and when all three are Terms it inserts the triple and
returns the graph itself, supporting chaining. -/
theorem fv_c7_add_asserts (g : PyGraph) (s p o : PyVal) :
    (s.isNode = false ∨ p.isNode = false ∨ o.isNode = false →
      pyGraphAdd g s p o = .error PyErr.assertionError) ∧
    (∀ s' p' o', s = .node s' → p = .node p' → o = .node o' →
      pyGraphAdd g s p o = .ok (graphAdd g (s', p', o'))) := by
  cases s <;> cases p <;> cases o <;>
    simp [pyGraphAdd, PyVal.isNode]

/-- Witness for the amended C7 theorem: a malformed subject raises
AssertionError, and a well-formed triple is inserted with the graph
returned. -/
theorem fv_c7_witness :
    pyGraphAdd exH (.other (String.toList "42")) (.node tP) (.node tO)
        = .error PyErr.assertionError ∧
    pyGraphAdd exH (.node tS) (.node tP) (.node tO)
        = .ok (graphAdd exH (tS, tP, tO)) :=
  ⟨(fv_c7_add_asserts exH (.other (String.toList "42")) (.node tP)
      (.node tO)).1 (Or.inl rfl),
    (fv_c7_add_asserts exH (.node tS) (.node tP) (.node tO)).2
      tS tP tO rfl rfl rfl⟩

/-- C3 counterexample: with subject and predicate both omitted and the
default argument set to the term tS, Graph.value returns None rather than
the supplied default. -/
theorem fv_c3_counterexample :
    graphValue exH none none (some tO) (some tS) true = .ok none ∧
    graphValue exH none none (some tO) (some tS) true ≠ .ok (some tS) := by
  exact ⟨rfl, by decide⟩

/-- C3 amended: whenever more than one of subject, predicate, object is
omitted, Graph.value returns None immediately, for every graph and every
default argument — so it coincides with the claimed behaviour only when the
caller's default is None. -/
theorem fv_c3_ambiguous_none (g : PyGraph) (s p o dflt : Option Term)
    (anyFlag : Bool) (h : ambiguousPattern s p o = true) :
    graphValue g s p o dflt anyFlag = .ok none := by
  unfold graphValue
  rw [if_pos h]

/-- Witness for the amended C3 theorem at a concrete ambiguous call. -/
theorem fv_c3_witness :
    graphValue exH none (some tP) none (some tS) false = .ok none :=
  fv_c3_ambiguous_none exH none (some tP) none (some tS) false (by decide)

/-- C4 counterexample: a quad whose context identifier is equal to the
graph's identifier (same IRI text) but a distinct Python object is dropped
by addN — nothing reaches the store — refuting the claim that every quad
whose context equals the graph's identifier is inserted. -/
theorem fv_c4_counterexample :
    (match qEqualNotIdentical.2.2.2 with
      | CtxObj.graphObj ident => ident.val = gN.identifier.val
      | CtxObj.nonGraph r => r.val = gN.identifier.val) ∧
    (graphAddN gN [qEqualNotIdentical]).storeQuads = [] := by
  exact ⟨rfl, by decide⟩

/-- C4 amended: Graph.addN inserts exactly those quads whose context is a
Graph instance whose identifier is the same object (Python is, object
identity) as this graph's identifier; every other quad — including quads
whose context identifier is merely equal text on a distinct object, and
quads with non-Graph contexts — is silently dropped, never errored. -/
theorem fv_c4_addN_identity (g : GraphN) (qs : List QuadR) :
    ∀ q, q ∈ (graphAddN g qs).storeQuads ↔
      q ∈ g.storeQuads ∨
        (q ∈ qs ∧ ∃ ident, q.2.2.2 = CtxObj.graphObj ident ∧
          ident.oid = g.identifier.oid) := by
  intro q
  unfold graphAddN
  simp only [List.mem_append, List.mem_filter]
  constructor
  · rintro (hq | ⟨hq, hpass⟩)
    · exact Or.inl hq
    · refine Or.inr ⟨hq, ?_⟩
      unfold ctxPasses at hpass
      rcases hc : q.2.2.2 with ident | r
      · rw [hc] at hpass
        exact ⟨ident, rfl, by simpa using hpass⟩
      · rw [hc] at hpass
        exact absurd hpass (by simp)
  · rintro (hq | ⟨hq, ident, hc, hoid⟩)
    · exact Or.inl hq
    · refine Or.inr ⟨hq, ?_⟩
      unfold ctxPasses
      rw [hc]
      simpa using hoid

theorem filter_ctxPasses_self (ident : TermRef) (qs : List QuadR)
    (h : ∀ q ∈ qs, q.2.2.2 = CtxObj.graphObj ident) :
    qs.filter (ctxPasses ident) = qs := by
  apply List.filter_eq_self.mpr
  intro q hq
  simp [ctxPasses, h q hq]

theorem batchAdd_full (b : BatchAddGraph) (t : Triple)
    (h : b.batchSize ≤ b.batch.length) :
    batchAdd b t =
      { b with
        received := b.received ++ [b.batch.filter (ctxPasses b.graphIdent)],
        count := b.count + 1,
        batch := [withGraphCtx b.graphIdent t] } := by
  unfold batchAdd
  rw [if_pos h]
  exact rfl

theorem batchAdd_notfull (b : BatchAddGraph) (t : Triple)
    (h : ¬ b.batchSize ≤ b.batch.length) :
    batchAdd b t =
      { b with count := b.count + 1,
               batch := b.batch ++ [withGraphCtx b.graphIdent t] } := by
  unfold batchAdd
  rw [if_neg h]

theorem batchAdd_count (b : BatchAddGraph) (t : Triple) :
    (batchAdd b t).count = b.count + 1 := by
  by_cases h : b.batchSize ≤ b.batch.length
  · rw [batchAdd_full b t h]
  · rw [batchAdd_notfull b t h]

theorem batchAddAll_count (ts : List Triple) (b : BatchAddGraph) :
    (batchAddAll b ts).count = b.count + ts.length := by
  induction ts generalizing b with
  | nil => rfl
  | cons t ts ih =>
      rw [batchAddAll, List.foldl_cons, ← batchAddAll, ih, batchAdd_count,
        List.length_cons]
      omega

theorem batchAdd_inv (ident : TermRef) (N : Nat) (hN : 2 ≤ N) (m : Nat)
    (done : List Triple) (b : BatchAddGraph)
    (hb : BatchInv ident N m done b) (t : Triple) :
    ∃ m', BatchInv ident N m' (done ++ [t]) (batchAdd b t) := by
  obtain ⟨h1, h2, h3, h4, h5, h6, h7⟩ := hb
  by_cases hfull : b.batchSize ≤ b.batch.length
  · have hlen : b.batch.length = N := le_antisymm h5 (h2 ▸ hfull)
    refine ⟨m + 1, ?_, ?_, ?_, ?_, ?_, ?_, ?_⟩ <;>
      rw [batchAdd_full b t hfull]
    · exact h1
    · exact h2
    · show (b.received ++ [b.batch.filter (ctxPasses b.graphIdent)]).map
          List.length = List.replicate (m + 1) N
      rw [h1, filter_ctxPasses_self ident b.batch h7, List.map_append, h3]
      simp [hlen, List.replicate_succ']
    · show (b.received ++ [b.batch.filter (ctxPasses b.graphIdent)]).flatten
          ++ [withGraphCtx b.graphIdent t]
          = (done ++ [t]).map (withGraphCtx ident)
      rw [h1, filter_ctxPasses_self ident b.batch h7, List.map_append,
        ← h4]
      simp
    · show (withGraphCtx b.graphIdent t :: []).length ≤ N
      simpa using by omega
    · intro hq
      exact absurd hq (by simp)
    · intro q hq
      rw [List.mem_singleton] at hq
      rw [hq, h1]
      rfl
  · refine ⟨m, ?_, ?_, ?_, ?_, ?_, ?_, ?_⟩ <;>
      rw [batchAdd_notfull b t hfull]
    · exact h1
    · exact h2
    · exact h3
    · show b.received.flatten ++ (b.batch ++ [withGraphCtx b.graphIdent t])
          = (done ++ [t]).map (withGraphCtx ident)
      rw [h1, ← List.append_assoc, h4, List.map_append]
      rfl
    · show (b.batch ++ [withGraphCtx b.graphIdent t]).length ≤ N
      rw [h2] at hfull
      simp only [List.length_append, List.length_singleton]
      omega
    · intro hq
      exact absurd hq (by simp)
    · intro q hq
      rcases List.mem_append.mp hq with hq | hq
      · exact h7 q hq
      · rw [List.mem_singleton] at hq
        rw [hq, h1]
        rfl

theorem batchAddAll_inv (ident : TermRef) (N : Nat) (hN : 2 ≤ N)
    (ts : List Triple) (m : Nat) (done : List Triple) (b : BatchAddGraph)
    (hb : BatchInv ident N m done b) :
    ∃ m', BatchInv ident N m' (done ++ ts) (batchAddAll b ts) := by
  induction ts generalizing m done b with
  | nil => exact ⟨m, by simpa using hb⟩
  | cons t ts ih =>
      obtain ⟨m1, hm1⟩ := batchAdd_inv ident N hN m done b hb t
      obtain ⟨m2, hm2⟩ := ih m1 (done ++ [t]) (batchAdd b t) hm1
      exact ⟨m2, by simpa using hm2⟩

theorem batchExit_true (b : BatchAddGraph) :
    batchExit true b =
      { b with
        received := b.received ++ [b.batch.filter (ctxPasses b.graphIdent)] } :=
  rfl

theorem batchInit_ok (ident : TermRef) (N : Nat) (b0 : BatchAddGraph)
    (hinit : batchInit ident N = .ok b0) :
    2 ≤ N ∧ b0 = { graphIdent := ident, received := [], batchSize := N,
                   batch := [], count := 0 } := by
  by_cases h : N < 2
  · rw [batchInit, if_pos h] at hinit
    exact absurd hinit (fun hh => Except.noConfusion hh)
  · rw [batchInit, if_neg h] at hinit
    exact ⟨by omega, (Except.ok.inj hinit).symm⟩

/-- C2: for a BatchAddGraph of batch size N initialised successfully (so
N is at least 2), after k calls to add with no manual flush the count
equals the number of adds at every moment; on normal scope exit the store
has received, as its non-empty addN batches, exactly k / N complete
batches of exactly N quads followed by the final flush of k % N quads, and
in total exactly the k added quads in order. -/
theorem fv_c2_batch_flushes (ident : TermRef) (N : Nat)
    (b0 : BatchAddGraph) (hinit : batchInit ident N = .ok b0)
    (ts : List Triple) :
    (∀ j, (batchAddAll b0 (ts.take j)).count = (ts.take j).length) ∧
    (batchExit true (batchAddAll b0 ts)).count = ts.length ∧
    ((batchExit true (batchAddAll b0 ts)).received.map List.length).filter
        (fun n => n ≠ 0)
      = List.replicate (ts.length / N) N ++
          (if ts.length % N = 0 then [] else [ts.length % N]) ∧
    (batchExit true (batchAddAll b0 ts)).received.flatten
      = ts.map (withGraphCtx ident) := by
  obtain ⟨hN, hb0⟩ := batchInit_ok ident N b0 hinit
  have hNpos : 0 < N := by omega
  have hcount0 : b0.count = 0 := by rw [hb0]
  have hinv0 : BatchInv ident N 0 [] b0 := by
    rw [hb0]
    refine ⟨rfl, rfl, rfl, rfl, by simp, fun _ => rfl, ?_⟩
    intro q hq
    exact absurd hq (List.not_mem_nil q)
  obtain ⟨m, hm⟩ := batchAddAll_inv ident N hN ts 0 [] b0 hinv0
  rw [List.nil_append] at hm
  obtain ⟨g1, g2, g3, g4, g5, g6, g7⟩ := hm
  set B := batchAddAll b0 ts with hB
  have hrecv : (batchExit true B).received = B.received ++ [B.batch] := by
    rw [batchExit_true, g1, filter_ctxPasses_self ident B.batch g7]
  have hflat : (batchExit true B).received.flatten
      = ts.map (withGraphCtx ident) := by
    rw [hrecv, List.flatten_append]
    simpa using g4
  have hsum : B.received.flatten.length = m * N := by
    rw [List.length_flatten, g3]
    simp [List.sum_replicate, smul_eq_mul]
  have hk : m * N + B.batch.length = ts.length := by
    have := congrArg List.length g4
    rw [List.length_append, List.length_map, hsum] at this
    exact this
  refine ⟨?_, ?_, ?_, hflat⟩
  · intro j
    rw [batchAddAll_count, hcount0, Nat.zero_add]
  · have : (batchExit true B).count = B.count := by rw [batchExit_true]
    rw [this, hB, batchAddAll_count, hcount0, Nat.zero_add]
  · rw [hrecv, List.map_append]
    by_cases hempty : B.batch.length = 0
    · have hbnil : B.batch = [] := List.length_eq_zero.mp hempty
      have hrnil : B.received = [] := g6 hbnil
      have hm0 : m = 0 := by
        have h3' : List.replicate m N = [] := by
          rw [← g3, hrnil]
          rfl
        exact (List.replicate_eq_nil_iff N).mp h3'
      have hts0 : ts.length = 0 := by
        rw [← hk, hm0, hempty]
        simp
      rw [hbnil, hrnil, hts0]
      simp
    · have hfilterN : (List.replicate m N).filter (fun n => decide (n ≠ 0))
          = List.replicate m N := by
        apply List.filter_eq_self.mpr
        intro a ha
        rw [List.eq_of_mem_replicate ha]
        simp
        omega
      rw [List.filter_append, g3, hfilterN]
      by_cases hfull : B.batch.length = N
      · have hdiv : ts.length / N = m + 1 := by
          rw [← hk, hfull, ← Nat.succ_mul, Nat.mul_div_cancel _ hNpos]
        have hmod : ts.length % N = 0 := by
          rw [← hk, hfull, ← Nat.succ_mul, Nat.mul_mod_left]
        rw [hdiv, hmod, if_pos rfl, List.append_nil, List.replicate_succ']
        simp only [List.map_cons, List.map_nil, List.filter_cons]
        rw [hfull]
        have : (decide (N ≠ 0)) = true := by simp; omega
        rw [this]
        simp
      · have hlt : B.batch.length < N := lt_of_le_of_ne g5 hfull
        have hdiv : ts.length / N = m := by
          rw [← hk, Nat.mul_comm m N, Nat.mul_add_div hNpos,
            Nat.div_eq_of_lt hlt, Nat.add_zero]
        have hmod : ts.length % N = B.batch.length := by
          rw [← hk, Nat.mul_comm m N, Nat.mul_add_mod,
            Nat.mod_eq_of_lt hlt]
        rw [hdiv, hmod, if_neg hempty]
        simp only [List.map_cons, List.map_nil, List.filter_cons]
        have : (decide (B.batch.length ≠ 0)) = true := by simpa using hempty
        rw [this]
        simp

/-- Witness for the C2 theorem at batch size 2 and three adds: the store's
non-empty batches are one complete batch of 2 followed by a final flush of
1. -/
theorem fv_c2_witness :
    ((batchExit true (batchAddAll bcEx [trEx, trEx, trEx])).received.map
        List.length).filter (fun n => n ≠ 0) = [2, 1] := by
  have h := fv_c2_batch_flushes identEx 2 bcEx rfl [trEx, trEx, trEx]
  have h3 := h.2.2.1
  simpa using h3

/-- C9 counterexample: calling reset on a wrapper whose count is 5 leaves
count equal to 0, not 5 — reset does not preserve the cumulative count. -/
theorem fv_c9_counterexample :
    bAfter5.count = 5 ∧ (batchReset bAfter5).count = 0 := by
  constructor
  · decide
  · rfl

/-- C9 amended: BatchAddGraph.reset clears the buffer of not-yet-flushed
quads and resets the cumulative count to zero, while the store (the batches
already flushed) is untouched — nothing buffered is written by reset. -/
theorem fv_c9_reset_state (b : BatchAddGraph) :
    batchReset b =
      { graphIdent := b.graphIdent, received := b.received,
        batchSize := b.batchSize, batch := [], count := 0 } :=
  rfl

/-- C10: entering a BatchAddGraph as a context manager resets it: the
buffer empties and count restarts at zero, the store receives nothing, and
the state after enter is fully determined by the wrapped graph, batch size
and store alone — so quads buffered before entering can never be written. -/
theorem fv_c10_enter_resets (b : BatchAddGraph) :
    (batchEnter b).received = b.received ∧
    (batchEnter b).batch = [] ∧
    (batchEnter b).count = 0 ∧
    ∀ b', b'.graphIdent = b.graphIdent → b'.batchSize = b.batchSize →
      b'.received = b.received → batchEnter b' = batchEnter b := by
  refine ⟨rfl, rfl, rfl, ?_⟩
  intro b' h1 h2 h3
  unfold batchEnter batchReset
  rw [h1, h2, h3]

/-- Witness for the C10 theorem: entering from the dirty state and from the
fresh state produce the same wrapper. -/
theorem fv_c10_witness : batchEnter bDirty = batchEnter bcEx :=
  (fv_c10_enter_resets bcEx).2.2.2 bDirty rfl rfl rfl

theorem startsWith_append (p r : List Char) : startsWith p (p ++ r) = true := by
  induction p with
  | nil => rfl
  | cons a as ih => simp [startsWith, ih]

theorem roundtrip_term_bnode (l : List Char) :
    (if isRdflibSkolem (bnodeSkolemize l) then
        rdflibGenidDeSkolemize (bnodeSkolemize l)
      else if isExternalSkolem (bnodeSkolemize l) then
        genidDeSkolemize (bnodeSkolemize l)
      else bnodeSkolemize l) = .bnode l := by
  have hsk : isRdflibSkolem (bnodeSkolemize l) = true := by
    simp [isRdflibSkolem, bnodeSkolemize, startsWith_append]
  rw [if_pos hsk]
  simp [rdflibGenidDeSkolemize, bnodeSkolemize, List.drop_left]

theorem roundtrip_term_clean (x : Term) (hx : cleanTerm x = true)
    (hnb : ∀ l, x ≠ .bnode l) :
    (if isRdflibSkolem x then rdflibGenidDeSkolemize x
      else if isExternalSkolem x then genidDeSkolemize x
      else x) = x := by
  cases x with
  | uriref u =>
      simp only [cleanTerm, Bool.and_eq_true, Bool.not_eq_true'] at hx
      rw [isRdflibSkolem, hx.1, if_neg (by simp), isExternalSkolem, hx.2,
        if_neg (by simp)]
  | bnode l => exact absurd rfl (hnb l)
  | literal l =>
      rw [if_neg (by simp [isRdflibSkolem]), if_neg (by simp [isExternalSkolem])]

theorem roundtrip_triple (t : Triple) (hs : cleanTerm t.1 = true)
    (ho : cleanTerm t.2.2 = true) :
    doDeSkolemize2 (doSkolemize2 t) = t := by
  obtain ⟨s, p, o⟩ := t
  unfold doSkolemize2 doDeSkolemize2
  simp only
  congr 1
  · cases s with
    | bnode l => exact roundtrip_term_bnode l
    | uriref u => exact roundtrip_term_clean (.uriref u) hs (fun l h => Term.noConfusion h)
    | literal u => exact roundtrip_term_clean (.literal u) hs (fun l h => Term.noConfusion h)
  · congr 1
    cases o with
    | bnode l => exact roundtrip_term_bnode l
    | uriref u => exact roundtrip_term_clean (.uriref u) ho (fun l h => Term.noConfusion h)
    | literal u => exact roundtrip_term_clean (.literal u) ho (fun l h => Term.noConfusion h)

/-- C8: for every graph whose subject and object IRIs are not themselves
skolem-shaped (so every skolem IRI present after skolemize was minted by
this system's own authority), de_skolemize after skolemize yields a graph
whose triples are term-for-term exactly the original graph's triples. -/
theorem fv_c8_skolem_roundtrip (g : PyGraph) (hg : cleanGraph g = true) :
    ∀ t, t ∈ (deSkolemizeGraph (skolemizeGraph g)).triples ↔ t ∈ g.triples := by
  intro t
  have hclean : ∀ u ∈ g.triples, cleanTerm u.1 = true ∧ cleanTerm u.2.2 = true := by
    intro u hu
    have := (List.all_eq_true.mp hg) u hu
    exact ⟨(Bool.and_eq_true _ _).mp this |>.1, (Bool.and_eq_true _ _).mp this |>.2⟩
  unfold deSkolemizeGraph skolemizeGraph
  rw [mem_graphAddAll]
  simp only [newGraph, List.not_mem_nil, false_or]
  constructor
  · intro hmem
    obtain ⟨u, hu, hut⟩ := List.mem_map.mp hmem
    rw [mem_graphAddAll] at hu
    simp only [newGraph, List.not_mem_nil, false_or] at hu
    obtain ⟨v, hv, hvu⟩ := List.mem_map.mp hu
    obtain ⟨hc1, hc2⟩ := hclean v hv
    rw [← hut, ← hvu, roundtrip_triple v hc1 hc2]
    exact hv
  · intro hmem
    obtain ⟨hc1, hc2⟩ := hclean t hmem
    apply List.mem_map.mpr
    refine ⟨doSkolemize2 t, ?_, ?_⟩
    · rw [mem_graphAddAll]
      simp only [newGraph, List.not_mem_nil, false_or]
      exact List.mem_map.mpr ⟨t, hmem, rfl⟩
    · exact roundtrip_triple t hc1 hc2

/-- Witness for the C8 theorem at the concrete graph gSkolemEx and one of
its triples. -/
theorem fv_c8_witness :
    (Term.bnode (String.toList "n1"), tP, tO)
        ∈ (deSkolemizeGraph (skolemizeGraph gSkolemEx)).triples ↔
      (Term.bnode (String.toList "n1"), tP, tO) ∈ gSkolemEx.triples :=
  fv_c8_skolem_roundtrip gSkolemEx (by decide)
    (Term.bnode (String.toList "n1"), tP, tO)

/-- C1 (code versus claim): constructing a Dataset over a graph-aware
store never yields a dataset at all — Dataset.__init__ raises TypeError at
its super().__init__ call and registers no graph — so immediately after
construction there is no dataset holding exactly one default graph, and
the store's graph list is whatever it was before. -/
theorem fv_c1_no_default_graph (s : Store) (hs : s.graph_aware = true) :
    datasetInit s = .error PyErr.typeError ∧
    (∀ d : DatasetObj, datasetInit s ≠ .ok d) :=
  ⟨rfl, fun d h => Except.noConfusion h⟩

/-- Witness for the C1 theorem at the default graph-aware store holding no
graphs. -/
theorem fv_c1_witness :
    datasetInit { graph_aware := true, graphIdents := [] }
      = .error PyErr.typeError :=
  (fv_c1_no_default_graph { graph_aware := true, graphIdents := [] } rfl).1

end RdfLib
